import Mathlib

/-!
Verification of the synchronization engine of lrcshow-rs.

Durations are modelled as natural numbers of microseconds (every `Duration`
in the code is built from whole microseconds: lyric timestamps are parsed as
centiseconds, offsets are whole milliseconds, and player positions arrive as
microsecond counts), and monotonic instants as abstract natural numbers.
Rust panics (e.g. `Duration` subtraction underflow, `unwrap` on a failed
conversion or query) are modelled by an `Option`/dedicated constructor at the
function's result, `none` standing for the panic.
-/

/-- `PlaybackStatus` from src/events.rs. -/
inductive PlaybackStatus where
  | Playing
  | Paused
  | Stopped
deriving DecidableEq, Repr

/-- `Metadata` from src/events.rs; the file path is kept as an abstract string. -/
structure Metadata where
  file_path : String
deriving DecidableEq, Repr

/-- `PositionSnapshot` from src/events.rs: a position (µs) and the monotonic
instant at which it was captured. -/
structure PositionSnapshot where
  position : Nat
  instant : Nat
deriving DecidableEq, Repr

/-- `PlayerState` from src/events.rs (the same record is named `Progress` in
src/main.rs, which is the variant the orchestration loop threads around). -/
structure PlayerState where
  playback_status : PlaybackStatus
  position_snapshot : PositionSnapshot
  metadata : Option Metadata
deriving DecidableEq, Repr

/-- `Progress` is src/main.rs's name for the player state record. -/
abbrev Progress := PlayerState

/-- `PlayerState::current_position` from src/events.rs: extrapolates from the
snapshot while playing; `now` stands for `Instant::now()`. -/
def PlayerState.current_position (s : PlayerState) (now : Nat) : Nat :=
  if s.playback_status = PlaybackStatus.Playing then
    s.position_snapshot.position + (now - s.position_snapshot.instant)
  else
    s.position_snapshot.position

/-- `TimedLocation` from src/lrc.rs: a timestamp (µs) and the byte span
`[line_char_from_index, line_char_to_index)` it activates within its line. -/
structure TimedLocation where
  time : Nat
  line_char_from_index : Int
  line_char_to_index : Int
deriving DecidableEq, Repr

/-- `TimedText` from src/lrc.rs: one lyrics line together with its timings. -/
structure TimedText where
  text : String
  timings : List TimedLocation
deriving DecidableEq, Repr

/-- `Tag` from src/lrc.rs. -/
inductive Tag where
  | time (t : Nat)
  | offset (ms : Int)
  | unknown
deriving DecidableEq, Repr

/-- `LrcLine` from src/lrc.rs: the classification of one parsed input line. -/
inductive LrcLine where
  | empty
  | timedText (t : TimedText)
  | tag (tg : Tag)
deriving DecidableEq, Repr

/-- `LrcFile` from src/lrc.rs. -/
structure LrcFile where
  metadata : List (String × String)
  timed_texts_lines : List TimedText
deriving DecidableEq, Repr

/-- `LyricsTiming` from src/lrc.rs (src/main.rs declares an identical struct):
a timestamp (µs), the index of the lyrics line it belongs to, and the byte
span it activates within that line. -/
structure LyricsTiming where
  time : Nat
  line_index : Int
  line_char_from_index : Int
  line_char_to_index : Int
deriving DecidableEq, Repr

/-- `Lyrics` from src/lrc.rs. -/
structure Lyrics where
  lines : List String
  timings : List LyricsTiming
deriving DecidableEq, Repr

/-- The indexed inner loop of `Lyrics::new` (src/lrc.rs): pairs every timed
line with its `i32` line index (the `(0i32..).zip(..)` enumeration) and
flattens the per-line timings in file order. -/
def lyricsTimingsFrom (line_index : Int) : List TimedText → List LyricsTiming
  | [] => []
  | tl :: rest =>
      tl.timings.map (fun timing =>
        ⟨timing.time, line_index, timing.line_char_from_index, timing.line_char_to_index⟩)
        ++ lyricsTimingsFrom (line_index + 1) rest

/-- `Lyrics::new` from src/lrc.rs: prepends a synthetic zero mark whenever the
file has at least one timed line, then appends every timing in file order. -/
def Lyrics.new (lrc_file : LrcFile) : Lyrics :=
  { lines := lrc_file.timed_texts_lines.map (fun tl => tl.text)
    timings :=
      (if lrc_file.timed_texts_lines.isEmpty then [] else [⟨0, 0, 0, 0⟩])
        ++ lyricsTimingsFrom 0 lrc_file.timed_texts_lines }

/-- The per-timing body of the offset loop in `parse_lrc_file` (src/lrc.rs):
`timing.time = Duration::from_millis((prev_time_ms + offset_ms).try_into().unwrap())`.
The `as_millis` read truncates to milliseconds, and the `try_into().unwrap()`
panics (`none`) when the shifted value is negative. -/
def applyOffsetLocation (offset_ms : Int) (timing : TimedLocation) : Option TimedLocation :=
  let prev_time_ms : Int := Int.ofNat (timing.time / 1000)
  let new_ms : Int := prev_time_ms + offset_ms
  if new_ms < 0 then none
  else some ⟨new_ms.toNat * 1000, timing.line_char_from_index, timing.line_char_to_index⟩

/-- The per-line body of the offset loop in `parse_lrc_file` (src/lrc.rs):
timings are rewritten only when the current offset is non-zero. -/
def applyOffset (offset_ms : Int) (t : TimedText) : Option TimedText :=
  if offset_ms = 0 then some t
  else do
    let timings ← t.timings.mapM (applyOffsetLocation offset_ms)
    some ⟨t.text, timings⟩

/-- The accumulation loop of `parse_lrc_file` (src/lrc.rs), taken after each
input line has been classified by `parse_lrc_line`: timed lines are collected
(shifted by the current offset), an offset tag replaces the current offset,
and every other line is skipped. `none` is the panic on a negative shifted
timestamp. -/
def parseLrcFileLines (offset_ms : Int) : List LrcLine → Option (List TimedText)
  | [] => some []
  | LrcLine.timedText t :: rest => do
      let t1 ← applyOffset offset_ms t
      let r ← parseLrcFileLines offset_ms rest
      some (t1 :: r)
  | LrcLine.tag (Tag.offset v) :: rest => parseLrcFileLines v rest
  | _ :: rest => parseLrcFileLines offset_ms rest

/-- `parse_lrc_file` from src/lrc.rs, modelled from the classified lines on:
reading and classifying the raw text lines is the job of `lines_from_file`
and `parse_lrc_line`, which the claims do not touch. -/
def parse_lrc_file (lines : List LrcLine) : Option LrcFile :=
  (parseLrcFileLines 0 lines).map (fun ts => ⟨[], ts⟩)

/-- Specification-side view for the offset claim: pairs every timed line with
the value of the most recently preceding offset tag (zero if none precedes
it), a later offset tag replacing an earlier one. -/
def offsetView (offset_ms : Int) : List LrcLine → List (Int × TimedText)
  | [] => []
  | LrcLine.timedText t :: rest => (offset_ms, t) :: offsetView offset_ms rest
  | LrcLine.tag (Tag.offset v) :: rest => offsetView v rest
  | _ :: rest => offsetView offset_ms rest

/-- All timestamps in the line list are whole milliseconds (true of everything
`parse_lrc_line` can produce: its timestamps are whole centiseconds). -/
def msAligned (lines : List LrcLine) : Bool :=
  lines.all fun l =>
    match l with
    | LrcLine.timedText t => t.timings.all (fun timing => timing.time % 1000 == 0)
    | _ => true

/-- `REFRESH_EVERY` from src/main.rs: the 16ms tick period, in µs. -/
def REFRESH_EVERY : Nat := 16000

/-- `LrcTimedTextState` from src/main.rs: the lyrics timing cursor. `iter` is
the remaining tail of the timing list strictly after `next`. -/
structure LrcTimedTextState where
  current : Option LyricsTiming
  next : Option LyricsTiming
  iter : List LyricsTiming
deriving DecidableEq, Repr

/-- The scanning loop of `LrcTimedTextState::new` (src/main.rs): walks the
timing list, keeping as `current` the last mark not after `v` and stopping at
the first mark strictly after `v`. -/
def LrcTimedTextState.scan (current : Option LyricsTiming) :
    List LyricsTiming → Nat → LrcTimedTextState
  | [], _ => ⟨current, none, []⟩
  | timing :: rest, v =>
      if v < timing.time then ⟨current, some timing, rest⟩
      else LrcTimedTextState.scan (some timing) rest v

/-- `LrcTimedTextState::new` from src/main.rs (the cursor resync); `v` is
`progress.current_position()`. -/
def LrcTimedTextState.new (lrc : Lyrics) (v : Nat) : LrcTimedTextState :=
  LrcTimedTextState.scan none lrc.timings v

/-- `LrcTimedTextState::on_new_progress` from src/main.rs (the cursor
advance); `current_duration` is `progress.current_position()`. The result is
`none` when `timed_text.time - REFRESH_EVERY / 2` underflows (Rust `Duration`
subtraction panics rather than clamping); otherwise it returns the optional
"became active" mark paired with the updated cursor. -/
def LrcTimedTextState.on_new_progress (s : LrcTimedTextState) (current_duration : Nat) :
    Option (Option (Nat × LyricsTiming) × LrcTimedTextState) :=
  match s.next with
  | some timed_text =>
      if timed_text.time < REFRESH_EVERY / 2 then none
      else if timed_text.time - REFRESH_EVERY / 2 ≤ current_duration then
        some (some (current_duration, timed_text),
          ⟨some timed_text, s.iter.head?, s.iter.tail⟩)
      else some (none, s)
  | none => some (none, s)

/-- Whether an `on_new_progress` outcome returned a newly active mark. -/
def returnsMark (r : Option (Option (Nat × LyricsTiming) × LrcTimedTextState)) : Bool :=
  match r with
  | some (some _, _) => true
  | _ => false

/-- Whether the cursor's next mark lies within the half-tick tolerance above
`p` (and high enough for the tolerance subtraction not to underflow). -/
def withinTol (c : LrcTimedTextState) (p : Nat) : Bool :=
  match c.next with
  | some t => decide (REFRESH_EVERY / 2 ≤ t.time) && decide (t.time ≤ p + REFRESH_EVERY / 2)
  | none => false

/-- `Event` from the player module as consumed by src/main.rs's `run` loop. -/
inductive Event where
  | Seeked (position : Nat)
  | PlaybackStatusChange (status : PlaybackStatus)
  | MetadataChange (metadata : Option Metadata)
  | PlayerShutDown
  | PlayerStarted
deriving DecidableEq, Repr

/-- Outcome of one reducer step of src/main.rs's `run` loop: either the new
value of the `progress` variable, or a panic of the loop. -/
inductive StepResult where
  | ok (progress : Option Progress)
  | panicked
deriving DecidableEq, Repr

/-- The event `match` of src/main.rs's `run` loop, restricted to its effect on
the `progress` variable. `instant` is the event's timestamp; on Paused the
loop synchronously queries the player's position, whose outcome is the
`paused_query_position` input (`.unwrap()` panics when it is `none`) and which
is snapshotted at `Instant::now()`, modelled by `now`. -/
def stepProgress (progress : Option Progress) (instant : Nat) (event : Event)
    (paused_query_position : Option Nat) (now : Nat) : StepResult :=
  match event with
  | Event.Seeked position =>
      StepResult.ok (progress.map fun p => { p with position_snapshot := ⟨position, instant⟩ })
  | Event.PlaybackStatusChange PlaybackStatus.Playing =>
      StepResult.ok (progress.map fun p =>
        ⟨PlaybackStatus.Playing, ⟨p.position_snapshot.position, instant⟩, p.metadata⟩)
  | Event.PlaybackStatusChange PlaybackStatus.Stopped =>
      StepResult.ok (some ⟨PlaybackStatus.Stopped, ⟨0, instant⟩, none⟩)
  | Event.PlaybackStatusChange PlaybackStatus.Paused =>
      match progress with
      | none => StepResult.ok none
      | some p =>
          match paused_query_position with
          | none => StepResult.panicked
          | some pos =>
              StepResult.ok (some ⟨PlaybackStatus.Paused, ⟨pos, now⟩, p.metadata⟩)
  | Event.MetadataChange metadata =>
      StepResult.ok (progress.map fun p => { p with metadata := metadata })
  | Event.PlayerShutDown => StepResult.ok none
  | Event.PlayerStarted => StepResult.ok progress

/-- A dynamically typed property value (`dyn RefArg`) from src/player.rs, as
far as `parse_player_state` inspects it: a string, a 64-bit integer, an
`a{sv}`-style dictionary (its iterator yields key/value pairs), or anything
else. -/
inductive RefArg where
  | str (s : String)
  | int (i : Int)
  | dict (entries : List (RefArg × RefArg))
  | other

/-- `RefArg::as_str` as used in src/player.rs. -/
def RefArg.as_str : RefArg → Option String
  | RefArg.str s => some s
  | _ => none

/-- `RefArg::as_i64` as used in src/player.rs. -/
def RefArg.as_i64 : RefArg → Option Int
  | RefArg.int i => some i
  | _ => none

/-- `parse_playback_status` from src/player.rs; the source panics on any
other string, modelled as `none`. -/
def parse_playback_status (playback_status : String) : Option PlaybackStatus :=
  match playback_status with
  | "Playing" => some PlaybackStatus.Playing
  | "Paused" => some PlaybackStatus.Paused
  | "Stopped" => some PlaybackStatus.Stopped
  | _ => none

/-- `parse_player_playback_status` from src/player.rs (the panic of
`parse_playback_status` is surfaced as an error here). -/
def parse_player_playback_status (playback_status : RefArg) : Except String PlaybackStatus :=
  match playback_status.as_str with
  | none => Except.error "PlaybackStatus should be a string"
  | some s =>
      match parse_playback_status s with
      | some st => Except.ok st
      | none => Except.error "panicked on unknown PlaybackStatus"

/-- `parse_player_position` from src/player.rs: the value must be a
non-negative `i64` count of microseconds. -/
def parse_player_position (arg : RefArg) : Except String Nat :=
  match arg.as_i64 with
  | none => Except.error "Position should be an i64 value"
  | some v => if v < 0 then Except.error "Wrong position value" else Except.ok v.toNat

/-- The key/value walk of `parse_player_metadata` (src/player.rs): every key
must be a string; the value under "xesam:url" must be a string, and the last
occurrence wins. -/
def findFileUri (found : Option String) : List (RefArg × RefArg) → Except String (Option String)
  | [] => Except.ok found
  | (k, v) :: rest =>
      match k.as_str with
      | none => Except.error "metadata key should be a string"
      | some key =>
          if key = "xesam:url" then
            match v.as_str with
            | none => Except.error "url metadata should be string"
            | some uri => findFileUri (some uri) rest
          else findFileUri found rest

/-- `parse_player_metadata` from src/player.rs: yields no metadata when the
map carries no "xesam:url" entry (end-of-playlist notifications). The
URL-to-file-path conversion performed by the external `url` crate is
abstracted to carrying the URI string itself. -/
def parse_player_metadata (metadata_variant : RefArg) : Except String (Option Metadata) :=
  match metadata_variant with
  | RefArg.dict entries =>
      match findFileUri none entries with
      | Except.error e => Except.error e
      | Except.ok none => Except.ok none
      | Except.ok (some uri) => Except.ok (some ⟨uri⟩)
  | _ => Except.error "metadata should be a map"

/-- `try_get_value` from src/player.rs, over an association-list view of the
property map. -/
def try_get_value (hash_map : List (String × RefArg)) (key : String) : Except String RefArg :=
  match hash_map.lookup key with
  | some v => Except.ok v
  | none => Except.error "Missing key"

/-- `parse_player_state` from src/player.rs: builds the full player state from
the property map; metadata is not even read when the status is Stopped. The
`?` early returns of the source are written as explicit matches. -/
def parse_player_state (properties : List (String × RefArg)) (current_instant : Nat) :
    Except String PlayerState :=
  match try_get_value properties "PlaybackStatus" with
  | Except.error e => Except.error e
  | Except.ok pbArg =>
      match parse_player_playback_status pbArg with
      | Except.error e => Except.error e
      | Except.ok playback_status =>
          match try_get_value properties "Position" with
          | Except.error e => Except.error e
          | Except.ok posArg =>
              match parse_player_position posArg with
              | Except.error e => Except.error e
              | Except.ok position =>
                  match
                    (if playback_status = PlaybackStatus.Stopped then
                      Except.ok none
                    else
                      match try_get_value properties "Metadata" with
                      | Except.error e => Except.error e
                      | Except.ok m => parse_player_metadata m) with
                  | Except.error e => Except.error e
                  | Except.ok metadata =>
                      Except.ok ⟨playback_status, ⟨position, current_instant⟩, metadata⟩

/-- The four-`i32` wire payload of the active-segment signal and of the
`GetCurrentLyricsPosition` reply. -/
abbrev SegmentPayload := Int × Int × Int × Int

/-- The payload built from an optional timing by
`Server::on_active_lyrics_segment_changed` (src/server.rs): an absent mark
becomes `(-1, -1, -1, -1)`; for a present mark
`time.as_millis().try_into().unwrap()` panics (`none`) when the millisecond
count overflows an `i32`. -/
def mkSegmentPayload : Option LyricsTiming → Option SegmentPayload
  | none => some (-1, -1, -1, -1)
  | some t =>
      if t.time / 1000 < 2 ^ 31 then
        some (t.line_index, t.line_char_from_index, t.line_char_to_index,
          Int.ofNat (t.time / 1000))
      else none

/-- `Server::on_active_lyrics_segment_changed` from src/server.rs, as a state
transformer over the stored `current_timing`: the signal payload is built
first (`none` = panic while appending it), then the signal is sent only when
the new timing differs from the stored one, which is updated in that case. -/
def Server.on_active_lyrics_segment_changed (current_timing : Option LyricsTiming)
    (timing : Option LyricsTiming) :
    Option (Option SegmentPayload × Option LyricsTiming) :=
  match mkSegmentPayload timing with
  | none => none
  | some payload =>
      if current_timing ≠ timing then (some (some payload, timing))
      else some (none, current_timing)

/-- Runs a sequence of `on_active_lyrics_segment_changed` calls from a given
stored timing, collecting the mark values the sink is actually invoked with
(a panic aborts the run). -/
def runSegmentCalls (current_timing : Option LyricsTiming) :
    List (Option LyricsTiming) → List (Option LyricsTiming)
  | [] => []
  | timing :: rest =>
      match Server.on_active_lyrics_segment_changed current_timing timing with
      | none => []
      | some (some _, st) => timing :: runSegmentCalls st rest
      | some (none, st) => runSegmentCalls st rest

/-- The `GetCurrentLyricsPosition` method body from src/server.rs: replies
with the stored timing's fields, or `(-1, -1, -1, -1)` when none is stored;
the `i32` conversion of the timestamp panics (`none`) on overflow. -/
def getCurrentLyricsPosition (current_timing : Option LyricsTiming) : Option SegmentPayload :=
  match current_timing with
  | none => some (-1, -1, -1, -1)
  | some x =>
      if x.time / 1000 < 2 ^ 31 then
        some (x.line_index, x.line_char_from_index, x.line_char_to_index,
          Int.ofNat (x.time / 1000))
      else none

/-! ## Helper lemmas -/

lemma option_or_none {α : Type} (x : Option α) : x.or none = x := by
  cases x <;> rfl

lemma option_or_some_absorb {α : Type} (x : Option α) (a : α) (y : Option α) :
    (x.or (some a)).or y = x.or (some a) := by
  cases x <;> rfl

lemma getLast?_cons_or {α : Type} (a : α) (l : List α) :
    (a :: l).getLast? = l.getLast?.or (some a) := by
  induction l generalizing a with
  | nil => rfl
  | cons b m ih =>
      rw [List.getLast?_cons_cons, ih b]
      cases h : m.getLast? <;> rfl

/-! ## C4: the Stopped status change -/

/-- C4: for every prior state (including an absent one) and every timestamped
`PlaybackStatusChange(Stopped)` event, the reducer step produces a state with
status Stopped, position snapshot `{0, event.instant}`, and absent metadata,
regardless of the prior status, position, or metadata. -/
theorem claim_C4 (progress : Option Progress) (instant : Nat) (paused_query : Option Nat)
    (now : Nat) :
    stepProgress progress instant (Event.PlaybackStatusChange PlaybackStatus.Stopped)
        paused_query now
      = StepResult.ok (some ⟨PlaybackStatus.Stopped, ⟨0, instant⟩, none⟩) := rfl

/-! ## C6: the Paused status change with an unresolved position -/

/-- C6 counterexample: a Paused event whose synchronous position query fails,
arriving while a prior state exists, makes the reducer step panic (the
`unwrap` in src/main.rs line 400) — the loop crashes instead of reporting a
MissingPosition condition and carrying on. -/
theorem claim_C6_counterexample :
    stepProgress (some ⟨PlaybackStatus.Playing, ⟨123, 0⟩, some ⟨"/a.mp3"⟩⟩) 5
        (Event.PlaybackStatusChange PlaybackStatus.Paused) none 9
      = StepResult.panicked := rfl

/-- C6 amended: on a Paused event the reducer ignores the event when no prior
state exists, panics (crashing the loop) when a prior state exists but the
synchronous position query fails, and otherwise stores exactly the queried
position (never a silent zero default) snapshotted at `Instant::now()`. -/
theorem claim_C6_amended (progress : Option Progress) (instant : Nat)
    (paused_query : Option Nat) (now : Nat) :
    stepProgress progress instant (Event.PlaybackStatusChange PlaybackStatus.Paused)
        paused_query now
      = match progress, paused_query with
        | none, _ => StepResult.ok none
        | some _, none => StepResult.panicked
        | some p, some pos =>
            StepResult.ok (some ⟨PlaybackStatus.Paused, ⟨pos, now⟩, p.metadata⟩) := by
  cases progress <;> cases paused_query <;> rfl

/-! ## C10: the all-minus-one encoding of an absent mark -/

/-- C10: when no timing mark is active, `GetCurrentLyricsPosition` replies
with `(-1, -1, -1, -1)`, and the `ActiveLyricsSegmentChanged` signal built
from an absent mark carries the same four `-1` values. -/
theorem claim_C10 :
    getCurrentLyricsPosition none = some (-1, -1, -1, -1)
      ∧ mkSegmentPayload none = some (-1, -1, -1, -1) := ⟨rfl, rfl⟩

/-! ## C1: the advance tolerance window -/

/-- Whether a cursor's `next` mark (if any) lies strictly after position `p`. -/
def nextAfter (c : LrcTimedTextState) (p : Nat) : Bool :=
  match c.next with
  | some t => decide (p < t.time)
  | none => true

lemma scan_nextAfter (l : List LyricsTiming) (cur : Option LyricsTiming) (p : Nat) :
    nextAfter (LrcTimedTextState.scan cur l p) p = true := by
  induction l generalizing cur with
  | nil => rfl
  | cons timing rest ih =>
      simp only [LrcTimedTextState.scan]
      by_cases h : p < timing.time
      · rw [if_pos h]
        exact decide_eq_true h
      · rw [if_neg h]
        exact ih _

lemma advance_eq_withinTol (c : LrcTimedTextState) (p : Nat) :
    returnsMark (c.on_new_progress p) = withinTol c p := by
  rcases c with ⟨cur, nx, it⟩
  cases nx with
  | none => rfl
  | some t =>
      simp only [LrcTimedTextState.on_new_progress, withinTol]
      by_cases h1 : t.time < REFRESH_EVERY / 2
      · rw [if_pos h1, decide_eq_false (by omega : ¬ REFRESH_EVERY / 2 ≤ t.time)]
        rfl
      · rw [if_neg h1, decide_eq_true (by omega : REFRESH_EVERY / 2 ≤ t.time)]
        by_cases h2 : t.time - REFRESH_EVERY / 2 ≤ p
        · rw [if_pos h2, decide_eq_true (by omega : t.time ≤ p + REFRESH_EVERY / 2)]
          rfl
        · rw [if_neg h2, decide_eq_false (by omega : ¬ t.time ≤ p + REFRESH_EVERY / 2)]
          rfl

/-- C1 counterexample: for a cursor whose next mark sits at 5ms, the claimed
threshold `next.time − min(halfTick, next.time)` is 0, so the claim demands
that `advance(0)` return the mark and move the cursor forward; instead the
subtraction `next.time − 8ms` underflows and `on_new_progress` panics. -/
theorem claim_C1_counterexample :
    5000 - min (REFRESH_EVERY / 2) 5000 ≤ 0
      ∧ LrcTimedTextState.on_new_progress ⟨some ⟨0, 0, 0, 0⟩, some ⟨5000, 1, 0, 0⟩, []⟩ 0
          = none :=
  ⟨by decide, rfl⟩

/-- C1 amended: for a cursor whose next mark exists and lies at or above the
half-tick tolerance (8ms), `advance(p)` moves the cursor forward and returns
the newly current mark exactly when `p ≥ next.time − min(halfTick, next.time)`
(= `next.time − 8ms`), and otherwise returns nothing and leaves the cursor
unchanged; but when the next mark lies below 8ms the tolerance subtraction
underflows and the program panics instead of clamping the threshold at zero. -/
theorem claim_C1_amended (c : LrcTimedTextState) (p : Nat) (t : LyricsTiming)
    (hn : c.next = some t) :
    (REFRESH_EVERY / 2 ≤ t.time →
      (t.time - min (REFRESH_EVERY / 2) t.time ≤ p →
        c.on_new_progress p = some (some (p, t), ⟨some t, c.iter.head?, c.iter.tail⟩))
      ∧ (p < t.time - min (REFRESH_EVERY / 2) t.time →
        c.on_new_progress p = some (none, c)))
    ∧ (t.time < REFRESH_EVERY / 2 → c.on_new_progress p = none) := by
  rcases c with ⟨cur, nx, it⟩
  dsimp only at hn
  subst hn
  have hre : REFRESH_EVERY / 2 = 8000 := rfl
  constructor
  · intro h8
    rw [hre] at h8
    rw [Nat.min_eq_left (by rw [hre]; exact h8)]
    constructor
    · intro hp
      rw [hre] at hp
      simp only [LrcTimedTextState.on_new_progress, hre]
      rw [if_neg (by omega), if_pos hp]
    · intro hp
      rw [hre] at hp
      simp only [LrcTimedTextState.on_new_progress, hre]
      rw [if_neg (by omega), if_neg (by omega)]
  · intro hlt
    simp only [LrcTimedTextState.on_new_progress, hre]
    rw [hre] at hlt
    rw [if_pos hlt]

/-- C1 witness: the claimed behaviour at the spec's own example, a cursor with
next mark at 2000ms and position 1993ms (inside the 8ms tolerance window). -/
theorem claim_C1_witness :
    LrcTimedTextState.on_new_progress
        ⟨some ⟨1000000, 1, 0, 4⟩, some ⟨2000000, 2, 0, 4⟩, []⟩ 1993000
      = some (some (1993000, ⟨2000000, 2, 0, 4⟩), ⟨some ⟨2000000, 2, 0, 4⟩, none, []⟩) :=
  ((claim_C1_amended ⟨some ⟨1000000, 1, 0, 4⟩, some ⟨2000000, 2, 0, 4⟩, []⟩ 1993000
      ⟨2000000, 2, 0, 4⟩ rfl).1 (by decide)).1 (by decide)

/-! ## C2: resync immediately followed by advance -/

/-- C2 counterexample: with marks at 0, 1000ms and 2000ms, a resync at
position 1993ms immediately followed by `advance(1993ms)` does return the
mark at 2000ms (1993ms lies inside the half-tick tolerance window below it),
so resync-then-advance at the same position is not always a no-op. -/
theorem claim_C2_counterexample :
    LrcTimedTextState.on_new_progress
        (LrcTimedTextState.new ⟨[], [⟨0, 0, 0, 0⟩, ⟨1000000, 1, 0, 4⟩, ⟨2000000, 2, 0, 4⟩]⟩
          1993000)
        1993000
      = some (some (1993000, ⟨2000000, 2, 0, 4⟩), ⟨some ⟨2000000, 2, 0, 4⟩, none, []⟩) := by
  rfl

/-- C2 amended: after `resync(marks, p)` the cursor's next mark (if any) lies
strictly after `p`, and the immediately following `advance(p)` returns a mark
precisely when that next mark exists, is at least the half-tick tolerance
(8ms), and lies at most 8ms above `p`; in particular resync-then-advance at
the same position is a no-op only outside that tolerance window (and with a
next mark below 8ms the advance panics). -/
theorem claim_C2_amended (marks : List LyricsTiming) (p : Nat) :
    nextAfter (LrcTimedTextState.new ⟨[], marks⟩ p) p = true
      ∧ returnsMark ((LrcTimedTextState.new ⟨[], marks⟩ p).on_new_progress p)
          = withinTol (LrcTimedTextState.new ⟨[], marks⟩ p) p :=
  ⟨scan_nextAfter marks none p, advance_eq_withinTol _ p⟩

/-! ## C3: the resync characterization -/

lemma find?_cons_true {α : Type} (pred : α → Bool) (a : α) (l : List α) (h : pred a = true) :
    (a :: l).find? pred = some a := List.find?_cons_of_pos l h

lemma find?_cons_false {α : Type} (pred : α → Bool) (a : α) (l : List α) (h : pred a = false) :
    (a :: l).find? pred = l.find? pred :=
  List.find?_cons_of_neg l (by rw [h]; exact Bool.false_ne_true)

lemma filter_cons_true {α : Type} (pred : α → Bool) (a : α) (l : List α) (h : pred a = true) :
    (a :: l).filter pred = a :: l.filter pred := List.filter_cons_of_pos h

lemma scan_spec (l : List LyricsTiming) (cur : Option LyricsTiming) (p : Nat)
    (hs : List.Pairwise (fun a b => a.time ≤ b.time) l) :
    (LrcTimedTextState.scan cur l p).current
        = ((l.filter (fun t => decide (t.time ≤ p))).getLast?).or cur
      ∧ (LrcTimedTextState.scan cur l p).next
        = l.find? (fun t => decide (p < t.time)) := by
  induction l generalizing cur with
  | nil => exact ⟨rfl, rfl⟩
  | cons timing rest ih =>
      rcases List.pairwise_cons.mp hs with ⟨h1, h2⟩
      simp only [LrcTimedTextState.scan]
      by_cases h : p < timing.time
      · rw [if_pos h]
        constructor
        · have hft : (timing :: rest).filter (fun t => decide (t.time ≤ p)) = [] := by
            rw [List.filter_eq_nil_iff]
            intro a ha
            simp only [decide_eq_true_eq]
            rcases List.mem_cons.mp ha with rfl | hmem
            · omega
            · have := h1 a hmem
              omega
          rw [hft]
          rfl
        · rw [find?_cons_true (fun t => decide (p < t.time)) timing rest (decide_eq_true h)]
      · rw [if_neg h]
        have hle : timing.time ≤ p := by omega
        have hrec := ih (some timing) h2
        constructor
        · rw [hrec.1,
            filter_cons_true (fun t => decide (t.time ≤ p)) timing rest (decide_eq_true hle),
            getLast?_cons_or, option_or_some_absorb]
        · rw [hrec.2,
            find?_cons_false (fun t => decide (p < t.time)) timing rest
              (decide_eq_false (by omega))]

/-- C3: for every list of marks sorted ascending by time and every position
`p`, `resync(marks, p)` yields a cursor whose `current` is the last mark with
time ≤ p and whose `next` is the first mark with time > p; with the marks at
0, 1000ms and 2000ms and p = 1500ms, `current` is the mark at 1000ms and
`next` the mark at 2000ms; for an empty mark list both are absent; and for a
position before the first mark, `current` is absent and `next` is the first
mark. -/
theorem claim_C3 (marks : List LyricsTiming) (p : Nat)
    (hs : List.Pairwise (fun a b => a.time ≤ b.time) marks) :
    ((LrcTimedTextState.new ⟨[], marks⟩ p).current
        = (marks.filter (fun t => decide (t.time ≤ p))).getLast?
      ∧ (LrcTimedTextState.new ⟨[], marks⟩ p).next
        = marks.find? (fun t => decide (p < t.time)))
    ∧ ((LrcTimedTextState.new
          ⟨[], [⟨0, 0, 0, 0⟩, ⟨1000000, 1, 0, 4⟩, ⟨2000000, 2, 0, 4⟩]⟩ 1500000).current
        = some ⟨1000000, 1, 0, 4⟩
      ∧ (LrcTimedTextState.new
          ⟨[], [⟨0, 0, 0, 0⟩, ⟨1000000, 1, 0, 4⟩, ⟨2000000, 2, 0, 4⟩]⟩ 1500000).next
        = some ⟨2000000, 2, 0, 4⟩)
    ∧ ((LrcTimedTextState.new ⟨[], []⟩ p).current = none
      ∧ (LrcTimedTextState.new ⟨[], []⟩ p).next = none)
    ∧ ((LrcTimedTextState.new ⟨[], [⟨1000000, 1, 0, 4⟩, ⟨2000000, 2, 0, 4⟩]⟩ 500000).current
        = none
      ∧ (LrcTimedTextState.new ⟨[], [⟨1000000, 1, 0, 4⟩, ⟨2000000, 2, 0, 4⟩]⟩ 500000).next
        = some ⟨1000000, 1, 0, 4⟩) := by
  refine ⟨?_, ⟨by rfl, by rfl⟩, ⟨rfl, rfl⟩, ⟨by rfl, by rfl⟩⟩
  have h := scan_spec marks none p hs
  constructor
  · show (LrcTimedTextState.scan none marks p).current = _
    rw [h.1, option_or_none]
  · exact h.2

/-- C3 witness: the sortedness hypothesis discharged at the spec's example
marks, recovering `current` = mark@1000ms after a resync at 1500ms. -/
theorem claim_C3_witness :
    (LrcTimedTextState.new
        ⟨[], [⟨0, 0, 0, 0⟩, ⟨1000000, 1, 0, 4⟩, ⟨2000000, 2, 0, 4⟩]⟩ 1500000).current
      = some ⟨1000000, 1, 0, 4⟩ :=
  (claim_C3 [⟨0, 0, 0, 0⟩, ⟨1000000, 1, 0, 4⟩, ⟨2000000, 2, 0, 4⟩] 1500000 (by decide)).2.1.1

/-! ## C5: the metadata-absent-iff-Stopped invariant -/

/-- The invariant asserted by claim C5: metadata is absent exactly when the
playback status is Stopped. -/
def metadataAbsentIffStopped (s : PlayerState) : Prop :=
  s.metadata = none ↔ s.playback_status = PlaybackStatus.Stopped

/-- C5 counterexample: a `MetadataChange` step applied to the state produced
by a Stopped status change (Stopped, position 0, no metadata) yields a state
whose status is still Stopped but whose metadata is present, violating the
claimed invariant. -/
theorem claim_C5_counterexample :
    stepProgress (some ⟨PlaybackStatus.Stopped, ⟨0, 0⟩, none⟩) 1
        (Event.MetadataChange (some ⟨"/a.mp3"⟩)) none 2
      = StepResult.ok (some ⟨PlaybackStatus.Stopped, ⟨0, 0⟩, some ⟨"/a.mp3"⟩⟩)
      ∧ ¬ metadataAbsentIffStopped ⟨PlaybackStatus.Stopped, ⟨0, 0⟩, some ⟨"/a.mp3"⟩⟩ := by
  constructor
  · rfl
  · intro hinv
    exact Option.noConfusion (hinv.mpr rfl)

/-- C5 amended: the forward direction holds for the full-property query: any
state built by `parse_player_state` whose status is Stopped has absent
metadata (as does the Stopped reducer step, see C4); but the equivalence is
not an invariant of every constructed state — a `MetadataChange` step can
attach metadata to a Stopped state, and `parse_player_state` can yield a
Playing state with absent metadata when the property map carries no file
URI. -/
theorem claim_C5_amended (properties : List (String × RefArg)) (instant : Nat)
    (s : PlayerState) (h : parse_player_state properties instant = Except.ok s)
    (hstop : s.playback_status = PlaybackStatus.Stopped) :
    s.metadata = none := by
  unfold parse_player_state at h
  cases e1 : try_get_value properties "PlaybackStatus" with
  | error e =>
      simp only [e1] at h
      exact Except.noConfusion h
  | ok pbArg =>
      simp only [e1] at h
      cases e2 : parse_player_playback_status pbArg with
      | error e =>
          simp only [e2] at h
          exact Except.noConfusion h
      | ok pb =>
          simp only [e2] at h
          cases e3 : try_get_value properties "Position" with
          | error e =>
              simp only [e3] at h
              exact Except.noConfusion h
          | ok posArg =>
              simp only [e3] at h
              cases e4 : parse_player_position posArg with
              | error e =>
                  simp only [e4] at h
                  exact Except.noConfusion h
              | ok position =>
                  simp only [e4] at h
                  by_cases hpb : pb = PlaybackStatus.Stopped
                  · simp only [if_pos hpb] at h
                    injection h with h1
                    subst h1
                    rfl
                  · simp only [if_neg hpb] at h
                    cases e5 : try_get_value properties "Metadata" with
                    | error e =>
                        simp only [e5] at h
                        exact Except.noConfusion h
                    | ok m =>
                        simp only [e5] at h
                        cases e6 : parse_player_metadata m with
                        | error e =>
                            simp only [e6] at h
                            exact Except.noConfusion h
                        | ok md =>
                            simp only [e6] at h
                            injection h with h1
                            subst h1
                            exact absurd hstop hpb

/-- C5 witness: a Stopped property map is parsed into a Stopped state, whose
metadata the amended claim shows to be absent. -/
theorem claim_C5_witness :
    (⟨PlaybackStatus.Stopped, ⟨41337000, 7⟩, none⟩ : PlayerState).metadata = none :=
  claim_C5_amended [("PlaybackStatus", RefArg.str "Stopped"), ("Position", RefArg.int 41337000)]
    7 ⟨PlaybackStatus.Stopped, ⟨41337000, 7⟩, none⟩ rfl rfl

/-! ## C7: no duplicate consecutive active-segment notifications -/

lemma runSegmentCalls_chain (calls : List (Option LyricsTiming)) (st : Option LyricsTiming) :
    List.Chain' (fun a b => a ≠ b) (runSegmentCalls st calls)
      ∧ ∀ x, (runSegmentCalls st calls).head? = some x → x ≠ st := by
  induction calls generalizing st with
  | nil =>
      refine ⟨List.chain'_nil, fun x hx => ?_⟩
      exact Option.noConfusion hx
  | cons timing rest ih =>
      simp only [runSegmentCalls, Server.on_active_lyrics_segment_changed]
      cases hmk : mkSegmentPayload timing with
      | none =>
          refine ⟨List.chain'_nil, fun x hx => ?_⟩
          exact Option.noConfusion hx
      | some payload =>
          by_cases hne : st ≠ timing
          · simp only [if_pos hne]
            constructor
            · rw [List.chain'_cons']
              refine ⟨fun b hb => ?_, (ih timing).1⟩
              exact Ne.symm ((ih timing).2 b hb)
            · intro x hx
              injection hx with hx1
              subst hx1
              exact Ne.symm hne
          · simp only [if_neg hne]
            exact ih st

/-- C7: over every sequence of calls to the active-segment notification
starting from the freshly constructed server state, the external sink is
never invoked twice in a row with an identical mark value: a call whose mark
equals the stored last-emitted value sends nothing. -/
theorem claim_C7 (calls : List (Option LyricsTiming)) :
    List.Chain' (fun a b => a ≠ b) (runSegmentCalls none calls) :=
  (runSegmentCalls_chain calls none).1

/-! ## C8: the shape of the timing-mark collection -/

lemma lyricsTimingsFrom_map_time (ls : List TimedText) (i : Int) :
    (lyricsTimingsFrom i ls).map (fun t => t.time)
      = ls.flatMap (fun tl => tl.timings.map (fun loc => loc.time)) := by
  induction ls generalizing i with
  | nil => rfl
  | cons tl rest ih =>
      simp only [lyricsTimingsFrom, List.map_append, List.map_map, List.flatMap_cons]
      rw [ih]
      rfl

/-- C8 counterexample: a parsed file whose two timed lines appear in
decreasing time order (2000ms before 1000ms) yields a timing-mark collection
that is not sorted ascending by time — `Lyrics::new` keeps file order and
never sorts. -/
theorem claim_C8_counterexample :
    ¬ List.Pairwise (fun a b : LyricsTiming => a.time ≤ b.time)
        (Lyrics.new ⟨[], [⟨"a", [⟨2000000, 0, 1⟩]⟩, ⟨"b", [⟨1000000, 0, 1⟩]⟩]⟩).timings := by
  decide

/-- C8 amended: for a parsed file with no timed text lines the collection is
empty; with at least one timed line its first element is the synthetic
zero-time mark at `(line 0, 0, 0)`; and the collection is sorted ascending by
time whenever the file's own timings, flattened in file order, are sorted
(the code keeps file order, so an out-of-order file yields an out-of-order
collection). -/
theorem claim_C8_amended (f : LrcFile)
    (hs : List.Pairwise (fun a b : Nat => a ≤ b)
      (f.timed_texts_lines.flatMap (fun tl => tl.timings.map (fun loc => loc.time)))) :
    (f.timed_texts_lines = [] → (Lyrics.new f).timings = [])
      ∧ (f.timed_texts_lines ≠ [] → (Lyrics.new f).timings.head? = some ⟨0, 0, 0, 0⟩)
      ∧ List.Pairwise (fun a b : LyricsTiming => a.time ≤ b.time) (Lyrics.new f).timings := by
  have hmap : List.Pairwise (fun a b : LyricsTiming => a.time ≤ b.time)
      (lyricsTimingsFrom 0 f.timed_texts_lines) := by
    have h1 : List.Pairwise (fun a b : Nat => a ≤ b)
        ((lyricsTimingsFrom 0 f.timed_texts_lines).map (fun t => t.time)) := by
      rw [lyricsTimingsFrom_map_time]
      exact hs
    exact List.pairwise_map.mp h1
  refine ⟨?_, ?_, ?_⟩
  · intro hemp
    simp [Lyrics.new, hemp, lyricsTimingsFrom]
  · intro hne
    rcases hl : f.timed_texts_lines with _ | ⟨a, l⟩
    · exact absurd hl hne
    · simp [Lyrics.new, hl]
  · show List.Pairwise _
      ((if f.timed_texts_lines.isEmpty then [] else [⟨0, 0, 0, 0⟩])
        ++ lyricsTimingsFrom 0 f.timed_texts_lines)
    by_cases hemp : f.timed_texts_lines.isEmpty
    · rw [if_pos hemp, List.nil_append]
      exact hmap
    · rw [if_neg hemp, List.singleton_append]
      exact List.pairwise_cons.mpr ⟨fun x _ => Nat.zero_le x.time, hmap⟩

/-- C8 witness: a file whose flattened timings are sorted (0ms then 1000ms)
produces a collection headed by the synthetic zero mark. -/
theorem claim_C8_witness :
    (Lyrics.new ⟨[], [⟨"a", [⟨0, 0, 1⟩]⟩, ⟨"b", [⟨1000000, 0, 1⟩]⟩]⟩).timings.head?
      = some ⟨0, 0, 0, 0⟩ :=
  (claim_C8_amended ⟨[], [⟨"a", [⟨0, 0, 1⟩]⟩, ⟨"b", [⟨1000000, 0, 1⟩]⟩]⟩ (by decide)).2.1
    (by decide)

/-! ## C9: the offset tag semantics of parse_lrc_file -/

lemma mapM_some_forall₂ {α β : Type} (f : α → Option β) (l : List α) (r : List β)
    (h : l.mapM f = some r) : List.Forall₂ (fun a b => f a = some b) l r := by
  induction l generalizing r with
  | nil =>
      injection h with h1
      subst h1
      exact List.Forall₂.nil
  | cons a l ih =>
      rw [List.mapM_cons] at h
      cases hfa : f a with
      | none =>
          rw [hfa] at h
          simp at h
      | some b =>
          rw [hfa] at h
          cases hml : l.mapM f with
          | none =>
              rw [hml] at h
              simp at h
          | some bs =>
              rw [hml] at h
              simp at h
              subst h
              exact List.Forall₂.cons hfa (ih bs hml)

lemma applyOffsetLocation_spec (o : Int) (loc loc1 : TimedLocation)
    (hmod : loc.time % 1000 = 0) (h : applyOffsetLocation o loc = some loc1) :
    (loc1.time : Int) = (loc.time : Int) + o * 1000
      ∧ loc1.line_char_from_index = loc.line_char_from_index
      ∧ loc1.line_char_to_index = loc.line_char_to_index := by
  unfold applyOffsetLocation at h
  by_cases hneg : (Int.ofNat (loc.time / 1000) + o) < 0
  · rw [if_pos hneg] at h
    exact Option.noConfusion h
  · rw [if_neg hneg] at h
    injection h with h1
    subst h1
    refine ⟨?_, rfl, rfl⟩
    have hq : loc.time / 1000 * 1000 = loc.time :=
      Nat.div_mul_cancel (Nat.dvd_of_mod_eq_zero hmod)
    dsimp only
    simp only [Int.ofNat_eq_natCast] at hneg ⊢
    omega

/-- The kind of relation claim C9 asserts between an input timed line paired
with its governing offset and the corresponding parsed output line: same
text, and every timing shifted by exactly the offset (in milliseconds). -/
def shiftedByGoverningOffset (pr : Int × TimedText) (t1 : TimedText) : Prop :=
  t1.text = pr.2.text
    ∧ List.Forall₂ (fun loc loc1 =>
        (loc1.time : Int) = (loc.time : Int) + pr.1 * 1000
          ∧ loc1.line_char_from_index = loc.line_char_from_index
          ∧ loc1.line_char_to_index = loc.line_char_to_index)
      pr.2.timings t1.timings

lemma forall₂_shift (o : Int) (locs locs1 : List TimedLocation)
    (hmod : ∀ loc ∈ locs, loc.time % 1000 = 0)
    (hf : List.Forall₂ (fun a b => applyOffsetLocation o a = some b) locs locs1) :
    List.Forall₂ (fun loc loc1 =>
        (loc1.time : Int) = (loc.time : Int) + o * 1000
          ∧ loc1.line_char_from_index = loc.line_char_from_index
          ∧ loc1.line_char_to_index = loc.line_char_to_index)
      locs locs1 := by
  induction hf with
  | nil => exact List.Forall₂.nil
  | @cons a b l r hab hrest ih =>
      refine List.Forall₂.cons
        (applyOffsetLocation_spec o a b (hmod a (List.mem_cons_self a l)) hab) ?_
      exact ih (fun loc hl => hmod loc (List.mem_cons_of_mem a hl))

lemma parseLrc_spec (lines : List LrcLine) (o : Int) (res : List TimedText)
    (ha : msAligned lines = true) (h : parseLrcFileLines o lines = some res) :
    List.Forall₂ shiftedByGoverningOffset (offsetView o lines) res := by
  induction lines generalizing o res with
  | nil =>
      injection h with h1
      subst h1
      exact List.Forall₂.nil
  | cons line rest ih =>
      have hpair := ha
      unfold msAligned at hpair
      rw [List.all_cons, Bool.and_eq_true] at hpair
      have haRest : msAligned rest = true := hpair.2
      cases line with
      | empty => exact ih o res haRest h
      | tag tg =>
          cases tg with
          | time tv => exact ih o res haRest h
          | offset v => exact ih v res haRest h
          | unknown => exact ih o res haRest h
      | timedText t =>
          have hat : ∀ loc ∈ t.timings, loc.time % 1000 = 0 := by
            have h1 := hpair.1
            simp only [List.all_eq_true, beq_iff_eq] at h1
            exact h1
          simp only [parseLrcFileLines] at h
          cases hap : applyOffset o t with
          | none =>
              rw [hap] at h
              simp at h
          | some t1 =>
              rw [hap] at h
              cases hpr : parseLrcFileLines o rest with
              | none =>
                  rw [hpr] at h
                  simp at h
              | some r =>
                  rw [hpr] at h
                  simp at h
                  subst h
                  show List.Forall₂ shiftedByGoverningOffset ((o, t) :: offsetView o rest)
                    (t1 :: r)
                  refine List.Forall₂.cons ?_ (ih o r haRest hpr)
                  unfold applyOffset at hap
                  by_cases ho : o = 0
                  · rw [if_pos ho] at hap
                    injection hap with h2
                    subst h2
                    subst ho
                    refine ⟨rfl, List.forall₂_same.mpr fun loc _ => ⟨by push_cast; ring, rfl, rfl⟩⟩
                  · rw [if_neg ho] at hap
                    cases hmm : t.timings.mapM (applyOffsetLocation o) with
                    | none =>
                        rw [hmm] at hap
                        simp at hap
                    | some locs =>
                        rw [hmm] at hap
                        simp at hap
                        subst hap
                        exact ⟨rfl,
                          forall₂_shift o t.timings locs hat
                            (mapM_some_forall₂ (applyOffsetLocation o) t.timings locs hmm)⟩

/-- C9 counterexample: an offset tag of −1ms followed by a timed line at 0ms
makes the shifted timestamp negative; `parse_lrc_file` then panics on the
failed `u64` conversion and produces no timed lines at all, instead of the
claimed shifted timing. -/
theorem claim_C9_counterexample :
    parseLrcFileLines 0
        [LrcLine.tag (Tag.offset (-1)), LrcLine.timedText ⟨"a", [⟨0, 0, 1⟩]⟩] = none
      ∧ (offsetView 0
          [LrcLine.tag (Tag.offset (-1)), LrcLine.timedText ⟨"a", [⟨0, 0, 1⟩]⟩]).length
        = 1 := ⟨rfl, rfl⟩

/-- C9 amended: whenever `parse_lrc_file` succeeds (it panics when a shifted
timestamp would be negative), each output timed line corresponds to an input
timed line with the same text and with every timing shifted by exactly the
value in milliseconds of the most recently preceding offset tag — zero if
none precedes it, a later offset tag replacing rather than accumulating with
an earlier one (the pairing computed by `offsetView`). Timestamps are assumed
whole milliseconds, as everything produced by the line parser is. -/
theorem claim_C9_amended (lines : List LrcLine) (f : LrcFile)
    (ha : msAligned lines = true) (h : parse_lrc_file lines = some f) :
    List.Forall₂ shiftedByGoverningOffset (offsetView 0 lines) f.timed_texts_lines := by
  unfold parse_lrc_file at h
  cases hp : parseLrcFileLines 0 lines with
  | none =>
      rw [hp] at h
      exact Option.noConfusion h
  | some ts =>
      rw [hp] at h
      simp at h
      subst h
      exact parseLrc_spec lines 0 ts ha hp

/-- C9 witness: two offset tags (100ms then 200ms) each governing one timed
line at 10ms; the parse succeeds with timings 110ms and 210ms — the second
offset replaces the first. -/
theorem claim_C9_witness :
    List.Forall₂ shiftedByGoverningOffset
      (offsetView 0
        [LrcLine.tag (Tag.offset 100), LrcLine.timedText ⟨"a", [⟨10000, 0, 1⟩]⟩,
          LrcLine.tag (Tag.offset 200), LrcLine.timedText ⟨"b", [⟨10000, 0, 1⟩]⟩])
      [⟨"a", [⟨110000, 0, 1⟩]⟩, ⟨"b", [⟨210000, 0, 1⟩]⟩] :=
  claim_C9_amended
    [LrcLine.tag (Tag.offset 100), LrcLine.timedText ⟨"a", [⟨10000, 0, 1⟩]⟩,
      LrcLine.tag (Tag.offset 200), LrcLine.timedText ⟨"b", [⟨10000, 0, 1⟩]⟩]
    ⟨[], [⟨"a", [⟨110000, 0, 1⟩]⟩, ⟨"b", [⟨210000, 0, 1⟩]⟩]⟩ (by decide) rfl
